import Mathlib

/-!
Shallow embedding of the Smart Inventory equipment/audit-log core
(src/app/models.py, src/app/crud.py, src/app/main.py, src/app/schemas.py).

The database is modelled as an explicit state record; every SQLAlchemy
commit is a pure state transition.  Server timestamps are supplied by the
caller as a `now : Nat` argument, since the wall clock is external to the
program.  Fallible operations return `Option` / `Except` exactly where the
Python code returns `None` or lets a database error escape.
-/

namespace Inventory

/-- schemas.EquipmentStatus: the three legal status values. -/
inductive EquipmentStatus where
  | available
  | issued
  | lost
deriving DecidableEq, Repr

/-- The string stored in the `status` column (`EquipmentStatus.value` in Python). -/
def EquipmentStatus.value : EquipmentStatus → String
  | .available => "available"
  | .issued => "issued"
  | .lost => "lost"

/-- models.Equipment: one row of the `equipment` table. -/
structure Equipment where
  id : Nat
  uuid : String
  name : String
  location : String
  notes : Option String
  status : String
  qrcode_path : Option String
deriving DecidableEq, Repr

/-- models.History: one row of the `history` table. -/
structure History where
  id : Nat
  equipment_id : Nat
  timestamp : Nat
  action : String
  user : Option String
deriving DecidableEq, Repr

/-- models.User: one row of the `users` table. -/
structure User where
  id : Nat
  username : String
  role : String
  hashed_password : String
deriving DecidableEq, Repr

/-- The durable store: tables in insertion order plus autoincrement counters. -/
structure DB where
  equipment : List Equipment
  history : List History
  users : List User
  nextEquipmentId : Nat
  nextHistoryId : Nat
  nextUserId : Nat
deriving DecidableEq, Repr

def DB.empty : DB := ⟨[], [], [], 0, 0, 0⟩

/-- schemas.EquipmentCreate. -/
structure EquipmentCreate where
  name : String
  location : String
  notes : Option String
deriving DecidableEq, Repr

/-- schemas.EquipmentUpdate: every field optional. -/
structure EquipmentUpdate where
  name : Option String
  location : Option String
  notes : Option String
deriving DecidableEq, Repr

/-- schemas.HistoryCreate. -/
structure HistoryCreate where
  action : String
  user : Option String
deriving DecidableEq, Repr

/-- crud._save_qrcode: the image write is external; the returned path is pure. -/
def save_qrcode (equipment_uuid : String) : String :=
  "qrcodes/" ++ equipment_uuid ++ ".png"

/-- crud.get_equipment_by_uuid: `.filter(uuid == u).first()`. -/
def get_equipment_by_uuid (db : DB) (equipment_uuid : String) : Option Equipment :=
  db.equipment.find? (fun e => e.uuid == equipment_uuid)

/-- The lazy-loaded `Equipment.histories` relationship: rows of `history`
with this equipment's id, in insertion (rowid) order — the relationship
declares no ordering clause. -/
def histories (db : DB) (equipment_id : Nat) : List History :=
  db.history.filter (fun h => h.equipment_id == equipment_id)

/-- crud.get_equipment_detail: the entity together with its eagerly loaded history. -/
def get_equipment_detail (db : DB) (equipment_uuid : String) :
    Option (Equipment × List History) :=
  (get_equipment_by_uuid db equipment_uuid).map (fun e => (e, histories db e.id))

/-- crud.log_history: insert one history row and commit. -/
def log_history (db : DB) (equipment_id : Nat) (action : String)
    (user : Option String) (now : Nat) : DB × History :=
  let entry : History := ⟨db.nextHistoryId, equipment_id, now, action, user⟩
  (⟨db.equipment, db.history ++ [entry], db.users,
    db.nextEquipmentId, db.nextHistoryId + 1, db.nextUserId⟩, entry)

/-- One committed in-place update of the equipment row with the given id. -/
def commitRow (db : DB) (equipment_id : Nat) (f : Equipment → Equipment) : DB :=
  { db with equipment := db.equipment.map (fun e => if e.id == equipment_id then f e else e) }

/-- crud.create_equipment: the uuid produced by the single `uuid4()` call is
passed in as `genUuid`; the unique constraint on `equipment.uuid` makes the
insert commit fail on a collision. -/
def create_equipment (db : DB) (genUuid : String) (equipment_in : EquipmentCreate)
    (now : Nat) : Except String (DB × Equipment) :=
  if db.equipment.any (fun e => e.uuid == genUuid) then
    .error "UNIQUE constraint failed: equipment.uuid"
  else
    let row : Equipment :=
      ⟨db.nextEquipmentId, genUuid, equipment_in.name, equipment_in.location,
        equipment_in.notes, EquipmentStatus.available.value, some (save_qrcode genUuid)⟩
    let db1 : DB :=
      ⟨db.equipment ++ [row], db.history, db.users,
        db.nextEquipmentId + 1, db.nextHistoryId, db.nextUserId⟩
    let db2 := (log_history db1 row.id "Создана запись" none now).1
    .ok (db2, row)

/-- crud.update_equipment_status: set the status column, commit, then log. -/
def update_equipment_status (db : DB) (equipment_uuid : String)
    (status : EquipmentStatus) (now : Nat) : Option (DB × Equipment) :=
  match get_equipment_by_uuid db equipment_uuid with
  | none => none
  | some e =>
    let db1 := commitRow db e.id (fun r => { r with status := status.value })
    let db2 := (log_history db1 e.id ("Статус изменён на " ++ status.value) none now).1
    some (db2, { e with status := status.value })

/-- The field assignments of crud.update_equipment_details: each supplied
field overwrites the current one. -/
def applyUpdate (update_in : EquipmentUpdate) (e : Equipment) : Equipment :=
  { e with
    name := match update_in.name with | some v => v | none => e.name
    location := match update_in.location with | some v => v | none => e.location
    notes := match update_in.notes with | some v => some v | none => e.notes }

/-- Whether crud.update_equipment_details sets `has_changes`: true exactly
when some field is supplied (not None), regardless of its value. -/
def hasChanges (update_in : EquipmentUpdate) : Bool :=
  update_in.name.isSome || update_in.location.isSome || update_in.notes.isSome

/-- crud.update_equipment_details. -/
def update_equipment_details (db : DB) (equipment_uuid : String)
    (update_in : EquipmentUpdate) (now : Nat) : Option (DB × Equipment) :=
  match get_equipment_by_uuid db equipment_uuid with
  | none => none
  | some e =>
    if hasChanges update_in then
      let db1 := commitRow db e.id (applyUpdate update_in)
      let db2 := (log_history db1 e.id "Данные оборудования обновлены" none now).1
      some (db2, applyUpdate update_in e)
    else
      some (db, e)

/-- crud.add_history_entry: a free-form history row, no entity mutation. -/
def add_history_entry (db : DB) (equipment_uuid : String)
    (history_in : HistoryCreate) (now : Nat) : Option (DB × Equipment) :=
  match get_equipment_by_uuid db equipment_uuid with
  | none => none
  | some e =>
    let db1 := (log_history db e.id history_in.action history_in.user now).1
    some (db1, e)

/-- crud.delete_equipment: remove the row and, via the
`cascade="all, delete-orphan"` relationship, all its history rows. -/
def delete_equipment (db : DB) (equipment_uuid : String) : DB × Bool :=
  match get_equipment_by_uuid db equipment_uuid with
  | none => (db, false)
  | some e =>
    (⟨db.equipment.filter (fun r => r.id != e.id),
      db.history.filter (fun h => h.equipment_id != e.id),
      db.users, db.nextEquipmentId, db.nextHistoryId, db.nextUserId⟩, true)

/-- auth.hash_password delegates to the external bcrypt capability; modelled
as an opaque-to-the-core tagging function. -/
def hash_password (password : String) : String :=
  "bcrypt$" ++ password

/-- crud.ensure_default_admin: seed one admin user when the table is empty. -/
def ensure_default_admin (db : DB) : DB :=
  if db.users.length != 0 then db
  else
    { db with
      users := db.users ++ [⟨db.nextUserId, "admin", "admin", hash_password "admin"⟩]
      nextUserId := db.nextUserId + 1 }

/-! ## Commit granularity

`update_equipment_status` commits the entity mutation (`db.commit()` inside
the crud function) and then `log_history` runs its own `db.commit()`: two
separate transactions.  `updateStatusCommitStates` lists the durable states
after each successive commit, i.e. the states an observer (or a failure
between the commits) can see. -/

def updateStatusCommitStates (db : DB) (equipment_uuid : String)
    (status : EquipmentStatus) (now : Nat) : List DB :=
  match get_equipment_by_uuid db equipment_uuid with
  | none => []
  | some e =>
    let db1 := commitRow db e.id (fun r => { r with status := status.value })
    let db2 := (log_history db1 e.id ("Статус изменён на " ++ status.value) none now).1
    [db1, db2]

/-- Likewise for crud.create_equipment: the insert commit, then the
history commit (when the insert does not hit the unique constraint). -/
def createCommitStates (db : DB) (genUuid : String) (equipment_in : EquipmentCreate)
    (now : Nat) : List DB :=
  if db.equipment.any (fun e => e.uuid == genUuid) then []
  else
    let row : Equipment :=
      ⟨db.nextEquipmentId, genUuid, equipment_in.name, equipment_in.location,
        equipment_in.notes, EquipmentStatus.available.value, some (save_qrcode genUuid)⟩
    let db1 : DB :=
      ⟨db.equipment ++ [row], db.history, db.users,
        db.nextEquipmentId + 1, db.nextHistoryId, db.nextUserId⟩
    let db2 := (log_history db1 row.id "Создана запись" none now).1
    [db1, db2]

/-- Likewise for crud.update_equipment_details: when some field is supplied
it commits the field assignments, then log_history runs its own commit;
with no supplied field the operation performs no commit at all. -/
def updateDetailsCommitStates (db : DB) (equipment_uuid : String)
    (update_in : EquipmentUpdate) (now : Nat) : List DB :=
  match get_equipment_by_uuid db equipment_uuid with
  | none => []
  | some e =>
    if hasChanges update_in then
      let db1 := commitRow db e.id (applyUpdate update_in)
      let db2 := (log_history db1 e.id "Данные оборудования обновлены" none now).1
      [db1, db2]
    else []

/-! ## Transport layer (src/app/main.py)

Principals are resolved by the session layer; a handler sees
`Option User`.  Responses are modelled just finely enough to distinguish
success, an HTTP error with a status code, and a redirect. -/

/-- The outcome a handler returns to the transport layer. -/
inductive ApiResult (α : Type) where
  | ok (a : α)
  | httpError (code : Nat) (detail : String)
  | redirect (code : Nat) (location : String)
deriving DecidableEq, Repr

/-- main.require_admin: 401 with no principal, 403 for a non-admin. -/
def require_admin (user : Option User) : Except (Nat × String) User :=
  match user with
  | none => .error (401, "Authentication required")
  | some u => if u.role != "admin" then .error (403, "Admin privileges required") else .ok u

/-- main.update_status (PATCH .../status), guarded by require_admin. -/
def update_status_api (db : DB) (principal : Option User) (equipment_uuid : String)
    (status : EquipmentStatus) (now : Nat) : DB × ApiResult Equipment :=
  match require_admin principal with
  | .error (c, d) => (db, .httpError c d)
  | .ok _ =>
    match update_equipment_status db equipment_uuid status now with
    | none => (db, .httpError 404 "Equipment not found")
    | some (db1, e) => (db1, .ok e)

/-- main.add_history_entry (POST .../history), guarded by require_admin. -/
def add_history_api (db : DB) (principal : Option User) (equipment_uuid : String)
    (history_in : HistoryCreate) (now : Nat) : DB × ApiResult Equipment :=
  match require_admin principal with
  | .error (c, d) => (db, .httpError c d)
  | .ok _ =>
    match add_history_entry db equipment_uuid history_in now with
    | none => (db, .httpError 404 "Equipment not found")
    | some (db1, e) => (db1, .ok e)

/-- main.update_equipment_details_api (PATCH .../equipment), guarded by require_admin. -/
def update_details_api (db : DB) (principal : Option User) (equipment_uuid : String)
    (update_in : EquipmentUpdate) (now : Nat) : DB × ApiResult Equipment :=
  match require_admin principal with
  | .error (c, d) => (db, .httpError c d)
  | .ok _ =>
    match update_equipment_details db equipment_uuid update_in now with
    | none => (db, .httpError 404 "Equipment not found")
    | some (db1, e) => (db1, .ok e)

/-- main.delete_equipment_api (DELETE .../equipment), guarded by require_admin. -/
def delete_api (db : DB) (principal : Option User) (equipment_uuid : String) :
    DB × ApiResult Unit :=
  match require_admin principal with
  | .error (c, d) => (db, .httpError c d)
  | .ok _ =>
    match delete_equipment db equipment_uuid with
    | (db1, true) => (db1, .ok ())
    | (_, false) => (db, .httpError 404 "Equipment not found")

/-- main.edit_equipment_form (POST .../edit): anonymous gets a 303 redirect
to /login, a non-admin gets 403, an admin runs the update and is redirected
to the item page. -/
def edit_equipment_form (db : DB) (principal : Option User) (equipment_uuid : String)
    (update_in : EquipmentUpdate) (now : Nat) : DB × ApiResult Unit :=
  match principal with
  | none => (db, .redirect 303 "/login")
  | some u =>
    if u.role != "admin" then (db, .httpError 403 "Admin privileges required")
    else
      match update_equipment_details db equipment_uuid update_in now with
      | none => (db, .redirect 303 ("/item/" ++ equipment_uuid))
      | some (db1, _) => (db1, .redirect 303 ("/item/" ++ equipment_uuid))

/-- main.delete_equipment_form (POST .../delete): same gating as the edit form. -/
def delete_equipment_form (db : DB) (principal : Option User)
    (equipment_uuid : String) : DB × ApiResult Unit :=
  match principal with
  | none => (db, .redirect 303 "/login")
  | some u =>
    if u.role != "admin" then (db, .httpError 403 "Admin privileges required")
    else ((delete_equipment db equipment_uuid).1, .redirect 303 "/")

/-- Running a list of set_status calls in order; `none` as soon as one is
rejected (the target does not resolve). -/
def apply_status_calls (db : DB) (equipment_uuid : String) (now : Nat) :
    List EquipmentStatus → Option DB
  | [] => some db
  | st :: rest =>
    match update_equipment_status db equipment_uuid st now with
    | none => none
    | some (db1, _) => apply_status_calls db1 equipment_uuid now rest

/-! ## Concrete fixtures used by witnesses and counterexamples -/

def drillIn : EquipmentCreate := ⟨"Drill", "Shelf A", none⟩

/-- The store after creating one item (generated uuid "u") at time 5. -/
def dbDrill : DB :=
  ((create_equipment DB.empty "u" drillIn 5).toOption.map Prod.fst).getD DB.empty

def drillRow : Equipment :=
  ⟨0, "u", "Drill", "Shelf A", none, "available", some "qrcodes/u.png"⟩

/-- dbDrill after a set_status call stamped with an EARLIER wall-clock time
(the server clock stepped back between the two requests). -/
def dbClockBack : DB :=
  ((update_equipment_status dbDrill "u" EquipmentStatus.issued 3).map Prod.fst).getD dbDrill

/-- dbDrill after a normally-stamped set_status call. -/
def dbIssued : DB :=
  ((update_equipment_status dbDrill "u" EquipmentStatus.issued 7).map Prod.fst).getD dbDrill

def issuedRow : Equipment :=
  ⟨0, "u", "Drill", "Shelf A", none, "issued", some "qrcodes/u.png"⟩

/-- A non-admin principal. -/
def bobUser : User := ⟨1, "bob", "user", hash_password "pw"⟩

/-- The durable state after create_equipment's FIRST commit (the entity
insert) on an empty store, before log_history's own commit runs. -/
def dbCreateMid : DB :=
  ((createCommitStates DB.empty "u" drillIn 5).head?).getD DB.empty

/-! ## Helper lemmas -/

theorem histories_commitRow (db : DB) (i j : Nat) (f : Equipment → Equipment) :
    histories (commitRow db i f) j = histories db j := rfl

theorem histories_log_self (db : DB) (i : Nat) (a : String) (us : Option String)
    (now : Nat) :
    histories (log_history db i a us now).1 i
      = histories db i ++ [⟨db.nextHistoryId, i, now, a, us⟩] := by
  simp [histories, log_history, List.filter_append]

theorem find?_map_update (l : List Equipment) (u : String) (e : Equipment)
    (f : Equipment → Equipment) (hf : ∀ r, (f r).uuid = r.uuid)
    (h : l.find? (fun r => r.uuid == u) = some e) :
    (l.map (fun r => if r.id == e.id then f r else r)).find? (fun r => r.uuid == u)
      = some (f e) := by
  induction l with
  | nil => simp at h
  | cons a t ih =>
    rw [List.find?_cons] at h
    rw [List.map_cons, List.find?_cons]
    have huuid : (if (a.id == e.id) = true then f a else a).uuid = a.uuid := by
      by_cases hid : (a.id == e.id) = true
      · rw [if_pos hid, hf]
      · rw [if_neg hid]
    by_cases hpa : (a.uuid == u) = true
    · simp only [hpa] at h
      obtain rfl : a = e := by injection h
      simp only [huuid, hpa]
      simp
    · simp only [Bool.not_eq_true] at hpa
      simp only [hpa] at h
      simp only [huuid, hpa]
      exact ih h

theorem forall2_map_self {α : Type} (R : α → α → Prop) (f : α → α) (l : List α)
    (h : ∀ a, R a (f a)) : List.Forall₂ R l (l.map f) := by
  induction l with
  | nil => exact List.Forall₂.nil
  | cons a t ih => exact List.Forall₂.cons (h a) ih

theorem createCommitStates_spec (db : DB) (genUuid : String)
    (inp : EquipmentCreate) (now : Nat)
    (hcol : db.equipment.any (fun r => r.uuid == genUuid) = false)
    (hwf : ∀ h ∈ db.history, h.equipment_id < db.nextEquipmentId) :
    ∃ dbMid dbFin row,
      createCommitStates db genUuid inp now = [dbMid, dbFin] ∧
      create_equipment db genUuid inp now = .ok (dbFin, row) ∧
      row.status = EquipmentStatus.available.value ∧
      get_equipment_by_uuid dbMid genUuid = some row ∧
      histories dbMid row.id = [] ∧
      get_equipment_by_uuid dbFin genUuid = some row ∧
      histories dbFin row.id
        = [⟨db.nextHistoryId, row.id, now, "Создана запись", none⟩] := by
  have hnone : db.equipment.find? (fun r => r.uuid == genUuid) = none := by
    rw [List.find?_eq_none]
    intro r hr
    simpa using List.any_eq_false.mp hcol r hr
  have hnil : db.history.filter
      (fun hh => hh.equipment_id == db.nextEquipmentId) = [] := by
    rw [List.filter_eq_nil_iff]
    intro hh hm
    have := hwf hh hm
    simp only [beq_iff_eq]
    omega
  simp only [createCommitStates, create_equipment, hcol, Bool.false_eq_true, if_false]
  refine ⟨_, _, _, rfl, rfl, rfl, ?_, ?_, ?_, ?_⟩
  · rw [get_equipment_by_uuid]
    show (db.equipment ++ [_]).find? _ = _
    rw [List.find?_append, hnone]
    simp
  · rw [histories]
    show db.history.filter _ = []
    simpa using hnil
  · rw [get_equipment_by_uuid]
    show (db.equipment ++ [_]).find? _ = _
    rw [List.find?_append, hnone]
    simp
  · rw [histories]
    show (db.history ++ [_]).filter _ = _
    rw [List.filter_append]
    simpa using hnil

/-! ## C1 -/

/-- C1 counterexample: for the item created in `dbDrill`, calling
update_fields with every supplied field equal to the current value
("Drill" / "Shelf A") grows the history from 1 to 2 entries, so the claim
that such a call leaves the history length unchanged is false. -/
theorem c1_update_fields_equal_values_cex :
    get_equipment_by_uuid dbDrill "u" = some drillRow ∧
    (histories dbDrill 0).length = 1 ∧
    (update_equipment_details dbDrill "u" ⟨some "Drill", some "Shelf A", none⟩ 7).map
        (fun p => (histories p.1 0).length) = some 2 := by
  decide

/-- C1 (amended): update_fields with no field supplied is a no-op that
leaves the store (hence the history length) unchanged; update_fields with
ANY field supplied — whether or not its value differs from the current one,
so in particular with a differing name — commits and appends exactly one
history entry. -/
theorem c1_update_fields_history_length (db : DB) (u : String) (now : Nat)
    (e : Equipment) (h : get_equipment_by_uuid db u = some e) :
    update_equipment_details db u ⟨none, none, none⟩ now = some (db, e) ∧
    ∀ update_in : EquipmentUpdate, hasChanges update_in = true →
      ∀ db1 e1, update_equipment_details db u update_in now = some (db1, e1) →
        (histories db1 e.id).length = (histories db e.id).length + 1 := by
  constructor
  · simp [update_equipment_details, h, hasChanges]
  · intro upd hc db1 e1 hupd
    simp only [update_equipment_details, h, hc, if_true] at hupd
    simp only [Option.some.injEq, Prod.mk.injEq] at hupd
    obtain ⟨hdb1, he1⟩ := hupd
    subst hdb1
    rw [histories_log_self]
    simp [histories_commitRow]

theorem c1_update_fields_history_length_witness :
    update_equipment_details dbDrill "u" ⟨none, none, none⟩ 7 = some (dbDrill, drillRow) :=
  (c1_update_fields_history_length dbDrill "u" 7 drillRow (by decide)).1

/-! ## C2 -/

/-- C2 counterexample: among the durable states produced by the successive
commits of set_status on `dbDrill` there is one (after the first commit)
where the status change is visible while the history is still at its old
length, so the entity mutation and the history insert are not atomically
visible together. -/
theorem c2_atomic_visibility_cex :
    ¬ ∀ s ∈ updateStatusCommitStates dbDrill "u" EquipmentStatus.issued 7,
        ((get_equipment_by_uuid s "u").map Equipment.status
            = (get_equipment_by_uuid dbDrill "u").map Equipment.status ∧
          (histories s 0).length = (histories dbDrill 0).length) ∨
        ((get_equipment_by_uuid s "u").map Equipment.status = some "issued" ∧
          (histories s 0).length = (histories dbDrill 0).length + 1) := by
  decide

/-- C2 (amended): create, set_status, and update_fields (when a field is
supplied) each execute TWO separate commits — the entity mutation first,
log_history's commit second — so none of them is one atomic unit: a failure
between the commits leaves the entity change durable with no matching
history entry (for create, the new row briefly exists with empty history).
append_note performs a single commit inserting only its history entry, and
delete performs a single commit removing the entity and its history
together; only these two are atomic. -/
theorem c2_commit_granularity (db : DB) (u : String) (st : EquipmentStatus)
    (upd : EquipmentUpdate) (hin : HistoryCreate) (now : Nat) (e : Equipment)
    (h : get_equipment_by_uuid db u = some e) :
    (∃ db1 db2,
      updateStatusCommitStates db u st now = [db1, db2] ∧
      get_equipment_by_uuid db1 u = some { e with status := st.value } ∧
      (histories db1 e.id).length = (histories db e.id).length ∧
      get_equipment_by_uuid db2 u = some { e with status := st.value } ∧
      (histories db2 e.id).length = (histories db e.id).length + 1 ∧
      update_equipment_status db u st now
        = some (db2, { e with status := st.value })) ∧
    (hasChanges upd = true →
      ∃ db1 db2,
        updateDetailsCommitStates db u upd now = [db1, db2] ∧
        get_equipment_by_uuid db1 u = some (applyUpdate upd e) ∧
        (histories db1 e.id).length = (histories db e.id).length ∧
        (histories db2 e.id).length = (histories db e.id).length + 1 ∧
        update_equipment_details db u upd now = some (db2, applyUpdate upd e)) ∧
    (∀ genUuid inp, db.equipment.any (fun r => r.uuid == genUuid) = false →
      (∀ hh ∈ db.history, hh.equipment_id < db.nextEquipmentId) →
      ∃ dbMid dbFin row,
        createCommitStates db genUuid inp now = [dbMid, dbFin] ∧
        get_equipment_by_uuid dbMid genUuid = some row ∧
        histories dbMid row.id = [] ∧
        (histories dbFin row.id).length = 1 ∧
        create_equipment db genUuid inp now = .ok (dbFin, row)) ∧
    (∃ db1, add_history_entry db u hin now = some (db1, e) ∧
      db1.equipment = db.equipment ∧
      (histories db1 e.id).length = (histories db e.id).length + 1) ∧
    ((delete_equipment db u).2 = true ∧
      histories (delete_equipment db u).1 e.id = [] ∧
      (delete_equipment db u).1.equipment
        = db.equipment.filter (fun r => r.id != e.id) ∧
      (delete_equipment db u).1.history
        = db.history.filter (fun hh => hh.equipment_id != e.id)) := by
  refine ⟨?_, ?_, ?_, ?_, ?_⟩
  · have hfind : get_equipment_by_uuid
        (commitRow db e.id (fun r => { r with status := st.value })) u
        = some { e with status := st.value } :=
      find?_map_update db.equipment u e _ (fun r => rfl) h
    refine ⟨commitRow db e.id (fun r => { r with status := st.value }),
      (log_history (commitRow db e.id (fun r => { r with status := st.value })) e.id
        ("Статус изменён на " ++ st.value) none now).1, ?_, hfind, rfl, hfind, ?_, ?_⟩
    · simp [updateStatusCommitStates, h, commitRow]
    · simp [histories_log_self, histories_commitRow]
    · simp [update_equipment_status, h, commitRow]
  · intro hc
    have hfind2 : get_equipment_by_uuid (commitRow db e.id (applyUpdate upd)) u
        = some (applyUpdate upd e) :=
      find?_map_update db.equipment u e _ (fun r => rfl) h
    refine ⟨commitRow db e.id (applyUpdate upd),
      (log_history (commitRow db e.id (applyUpdate upd)) e.id
        "Данные оборудования обновлены" none now).1, ?_, hfind2, rfl, ?_, ?_⟩
    · simp [updateDetailsCommitStates, h, hc, commitRow]
    · simp [histories_log_self, histories_commitRow]
    · simp [update_equipment_details, h, hc, commitRow]
  · intro genUuid inp hcol hwf
    obtain ⟨dbMid, dbFin, row, hstates, hcreate, -, hmidfind, hmidhist, -, hfinhist⟩ :=
      createCommitStates_spec db genUuid inp now hcol hwf
    exact ⟨dbMid, dbFin, row, hstates, hmidfind, hmidhist, by rw [hfinhist]; rfl, hcreate⟩
  · refine ⟨(log_history db e.id hin.action hin.user now).1, ?_, rfl, ?_⟩
    · simp [add_history_entry, h]
    · simp [histories_log_self]
  · have hdel : delete_equipment db u
        = (⟨db.equipment.filter (fun r => r.id != e.id),
            db.history.filter (fun hh => hh.equipment_id != e.id),
            db.users, db.nextEquipmentId, db.nextHistoryId, db.nextUserId⟩, true) := by
      simp [delete_equipment, h]
    refine ⟨by rw [hdel], ?_, by rw [hdel], by rw [hdel]⟩
    rw [hdel, histories, List.filter_eq_nil_iff]
    intro hh hm hp
    obtain ⟨-, hne⟩ := List.mem_filter.mp hm
    simp only [bne_iff_ne] at hne
    exact hne (by simpa using hp)

theorem c2_commit_granularity_witness :
    (updateStatusCommitStates dbDrill "u" EquipmentStatus.issued 7).length = 2 := by
  obtain ⟨⟨db1, db2, heq, -⟩, -⟩ :=
    c2_commit_granularity dbDrill "u" EquipmentStatus.issued ⟨none, none, none⟩
      ⟨"note", none⟩ 7 drillRow (by rfl)
  rw [heq]
  rfl

/-! ## C3 -/

theorem update_status_spec (db : DB) (u : String) (st : EquipmentStatus)
    (now : Nat) (e : Equipment) (h : get_equipment_by_uuid db u = some e) :
    ∃ db2, update_equipment_status db u st now = some (db2, { e with status := st.value }) ∧
      get_equipment_by_uuid db2 u = some { e with status := st.value } ∧
      (histories db2 e.id).length = (histories db e.id).length + 1 := by
  have hfind : get_equipment_by_uuid
      (commitRow db e.id (fun r => { r with status := st.value })) u
      = some { e with status := st.value } :=
    find?_map_update db.equipment u e _ (fun r => rfl) h
  refine ⟨(log_history (commitRow db e.id (fun r => { r with status := st.value })) e.id
      ("Статус изменён на " ++ st.value) none now).1, ?_, hfind, ?_⟩
  · simp [update_equipment_status, h, commitRow]
  · simp [histories_log_self, histories_commitRow]

theorem foldl_status_getLast (init : String) (calls : List EquipmentStatus)
    (st : EquipmentStatus) (h : calls.getLast? = some st) :
    calls.foldl (fun _ st2 => st2.value) init = st.value := by
  induction calls generalizing init with
  | nil => simp at h
  | cons a t ih =>
    cases t with
    | nil =>
      obtain rfl : a = st := by simpa using h
      rfl
    | cons b t2 =>
      rw [List.getLast?_cons_cons] at h
      exact ih a.value h

theorem apply_status_calls_spec (db : DB) (u : String) (now : Nat) (e : Equipment)
    (calls : List EquipmentStatus) (h : get_equipment_by_uuid db u = some e) :
    ∃ dbN, apply_status_calls db u now calls = some dbN ∧
      (histories dbN e.id).length = (histories db e.id).length + calls.length ∧
      get_equipment_by_uuid dbN u
        = some { e with status := calls.foldl (fun _ st2 => st2.value) e.status } := by
  induction calls generalizing db e with
  | nil => exact ⟨db, rfl, by simp, by simpa using h⟩
  | cons st rest ih =>
    obtain ⟨db2, hup, hfind2, hlen2⟩ := update_status_spec db u st now e h
    obtain ⟨dbN, happ, hlenN, hfindN⟩ := ih db2 { e with status := st.value } hfind2
    have hlenN2 : (histories dbN e.id).length
        = (histories db2 e.id).length + rest.length := hlenN
    have hfindN2 : get_equipment_by_uuid dbN u
        = some { e with status := rest.foldl (fun _ st2 => st2.value) st.value } := hfindN
    refine ⟨dbN, ?_, ?_, ?_⟩
    · simp [apply_status_calls, hup, happ]
    · rw [List.length_cons, hlenN2, hlen2]
      omega
    · simpa [List.foldl_cons] using hfindN2

/-- C3: starting from any store where the item resolves, a sequence of N
set_status calls is accepted in full, grows the item's history by exactly
N entries, and leaves the status equal to the last call's argument — in
particular a call repeating the current status is accepted and still
appends one entry. -/
theorem c3_set_status_sequence (db : DB) (u : String) (now : Nat) (e : Equipment)
    (calls : List EquipmentStatus) (h : get_equipment_by_uuid db u = some e) :
    ∃ dbN, apply_status_calls db u now calls = some dbN ∧
      (histories dbN e.id).length = (histories db e.id).length + calls.length ∧
      ∀ st, calls.getLast? = some st →
        get_equipment_by_uuid dbN u = some { e with status := st.value } := by
  obtain ⟨dbN, h1, h2, h3⟩ := apply_status_calls_spec db u now e calls h
  refine ⟨dbN, h1, h2, ?_⟩
  intro st hst
  rw [h3, foldl_status_getLast e.status calls st hst]

theorem c3_set_status_sequence_witness :
    apply_status_calls dbDrill "u" 7
      [EquipmentStatus.available, EquipmentStatus.issued, EquipmentStatus.lost] ≠ none := by
  obtain ⟨dbN, h1, -⟩ := c3_set_status_sequence dbDrill "u" 7 drillRow
    [EquipmentStatus.available, EquipmentStatus.issued, EquipmentStatus.lost] (by decide)
  simp [h1]

/-! ## C4 -/

/-- C4 counterexample: the history relationship declares no ordering
clause, so rows come back in insertion (rowid) order; in `dbClockBack` a
set_status request was stamped with an earlier wall-clock time (3) than the
creation entry (5), and the returned history is not sorted by timestamp
ascending. -/
theorem c4_history_timestamp_order_cex :
    ¬ (histories dbClockBack 0).Pairwise (fun a b => a.timestamp ≤ b.timestamp) := by
  decide

/-- C4 (amended): list_for / detail return the item's history rows in
insertion (sequence-id) order; whenever the store's rows carry
non-decreasing timestamps along insertion order (a monotone server clock),
the returned history is sorted by timestamp ascending with ties broken by
insertion order. -/
theorem c4_histories_ordered (db : DB) (u : String)
    (hmono : db.history.Pairwise
      (fun a b => a.timestamp ≤ b.timestamp ∧ a.id < b.id)) :
    (∀ i, (histories db i).Pairwise
      (fun a b => a.timestamp ≤ b.timestamp ∧ a.id < b.id)) ∧
    (∀ e hs, get_equipment_detail db u = some (e, hs) →
      hs.Pairwise (fun a b => a.timestamp ≤ b.timestamp ∧ a.id < b.id)) := by
  have hall : ∀ i, (histories db i).Pairwise
      (fun a b => a.timestamp ≤ b.timestamp ∧ a.id < b.id) :=
    fun i => List.Pairwise.sublist (List.filter_sublist _) hmono
  refine ⟨hall, ?_⟩
  intro e hs hdet
  simp only [get_equipment_detail, Option.map_eq_some'] at hdet
  obtain ⟨e0, -, hpair⟩ := hdet
  obtain ⟨-, rfl⟩ := Prod.mk.injEq .. ▸ hpair
  exact hall e0.id

theorem c4_histories_ordered_witness :
    (histories dbIssued 0).Pairwise
      (fun a b => a.timestamp ≤ b.timestamp ∧ a.id < b.id) :=
  (c4_histories_ordered dbIssued "u" (by decide)).1 0

/-! ## C5 -/

theorem create_equipment_ok (db : DB) (genUuid : String)
    (equipment_in : EquipmentCreate) (now : Nat) (db1 : DB) (e : Equipment)
    (hok : create_equipment db genUuid equipment_in now = .ok (db1, e)) :
    db.equipment.any (fun r => r.uuid == genUuid) = false ∧
    e = ⟨db.nextEquipmentId, genUuid, equipment_in.name, equipment_in.location,
      equipment_in.notes, EquipmentStatus.available.value, some (save_qrcode genUuid)⟩ ∧
    db1.equipment = db.equipment ++ [e] ∧
    db1.history = db.history
      ++ [⟨db.nextHistoryId, db.nextEquipmentId, now, "Создана запись", none⟩] ∧
    db1.nextEquipmentId = db.nextEquipmentId + 1 := by
  by_cases hcol : db.equipment.any (fun r => r.uuid == genUuid) = true
  · simp [create_equipment, hcol] at hok
  · simp only [Bool.not_eq_true] at hcol
    refine ⟨hcol, ?_⟩
    simp only [create_equipment, hcol, Bool.false_eq_true, if_false,
      Except.ok.injEq, Prod.mk.injEq] at hok
    obtain ⟨hdb1, he⟩ := hok
    subst hdb1
    subst he
    exact ⟨rfl, rfl, rfl, rfl⟩

/-- C5 counterexample: a creation whose single uuid4 generation collides
with the live identity "u" in `dbDrill` surfaces the unique-constraint
failure to the caller instead of retrying and succeeding. -/
theorem c5_create_collision_cex :
    create_equipment dbDrill "u" ⟨"Hammer", "Shelf B", none⟩ 9
      = .error "UNIQUE constraint failed: equipment.uuid" ∧
    ∀ r, create_equipment dbDrill "u" ⟨"Hammer", "Shelf B", none⟩ 9 ≠ .ok r := by
  have h1 : create_equipment dbDrill "u" ⟨"Hammer", "Shelf B", none⟩ 9
      = .error "UNIQUE constraint failed: equipment.uuid" := by rfl
  refine ⟨h1, ?_⟩
  intro r hr
  rw [h1] at hr
  cases hr

/-- C5 (amended): identifier generation is attempted exactly once; when it
collides with a live row's identity the insert commit fails with the unique
constraint error surfaced to the caller (no internal retry), and whenever
creation does succeed, uniqueness of live identities is preserved — no two
live rows ever share one identity. -/
theorem c5_create_unique_identity (db : DB) (genUuid : String)
    (equipment_in : EquipmentCreate) (now : Nat) :
    (db.equipment.any (fun r => r.uuid == genUuid) = true →
      create_equipment db genUuid equipment_in now
        = .error "UNIQUE constraint failed: equipment.uuid") ∧
    ∀ db1 e, create_equipment db genUuid equipment_in now = .ok (db1, e) →
      (db.equipment.map (fun r => r.uuid)).Nodup →
      (db1.equipment.map (fun r => r.uuid)).Nodup := by
  constructor
  · intro hcol
    simp [create_equipment, hcol]
  · intro db1 e hok hnd
    obtain ⟨hcol, he, heq, -, -⟩ := create_equipment_ok db genUuid equipment_in now db1 e hok
    rw [heq, he]
    rw [List.map_append, List.nodup_append]
    refine ⟨hnd, by simp, ?_⟩
    intro a ha hmem
    have ha2 : a = genUuid := by simpa using hmem
    obtain ⟨r, hr, hru⟩ := List.mem_map.mp ha
    have hfalse : (r.uuid == genUuid) = false := by
      simpa using List.any_eq_false.mp hcol r hr
    rw [hru, ha2] at hfalse
    simp at hfalse

theorem c5_create_unique_identity_witness :
    create_equipment dbDrill "u" ⟨"Hammer", "Shelf B", none⟩ 9
      = .error "UNIQUE constraint failed: equipment.uuid" :=
  (c5_create_unique_identity dbDrill "u" ⟨"Hammer", "Shelf B", none⟩ 9).1 (by decide)

/-! ## C6 -/

/-- C6 counterexample: the HTML form variant of "edit fields" answers an
anonymous request with a 303 redirect to the login page — not with an
Unauthorized (401) rejection — while leaving the store unchanged.  So not
every state-mutating operation rejects a principal-less request as
Unauthorized. -/
theorem c6_anonymous_form_redirect_cex :
    edit_equipment_form dbDrill none "u" ⟨some "Hammer", none, none⟩ 9
      = (dbDrill, .redirect 303 "/login") ∧
    ∀ d, (edit_equipment_form dbDrill none "u" ⟨some "Hammer", none, none⟩ 9).2
      ≠ ApiResult.httpError 401 d := by
  have h1 : edit_equipment_form dbDrill none "u" ⟨some "Hammer", none, none⟩ 9
      = (dbDrill, .redirect 303 "/login") := rfl
  refine ⟨h1, ?_⟩
  intro d hd
  rw [h1] at hd
  simp at hd

/-- C6 (amended): every mutating endpoint leaves the store unchanged for an
anonymous or non-admin principal.  The JSON/API endpoints (change status,
append note, edit fields, delete) reject an anonymous request with
Unauthorized (401) and a non-admin with Forbidden (403); the HTML form
variants of edit and delete instead answer an anonymous request with a 303
redirect to /login, and a non-admin with Forbidden (403). -/
theorem c6_mutation_auth (db : DB) (u : User) (uuidv : String)
    (st : EquipmentStatus) (upd : EquipmentUpdate) (hin : HistoryCreate) (now : Nat)
    (hrole : u.role ≠ "admin") :
    update_status_api db none uuidv st now
      = (db, .httpError 401 "Authentication required") ∧
    add_history_api db none uuidv hin now
      = (db, .httpError 401 "Authentication required") ∧
    update_details_api db none uuidv upd now
      = (db, .httpError 401 "Authentication required") ∧
    delete_api db none uuidv = (db, .httpError 401 "Authentication required") ∧
    edit_equipment_form db none uuidv upd now = (db, .redirect 303 "/login") ∧
    delete_equipment_form db none uuidv = (db, .redirect 303 "/login") ∧
    update_status_api db (some u) uuidv st now
      = (db, .httpError 403 "Admin privileges required") ∧
    add_history_api db (some u) uuidv hin now
      = (db, .httpError 403 "Admin privileges required") ∧
    update_details_api db (some u) uuidv upd now
      = (db, .httpError 403 "Admin privileges required") ∧
    delete_api db (some u) uuidv = (db, .httpError 403 "Admin privileges required") ∧
    edit_equipment_form db (some u) uuidv upd now
      = (db, .httpError 403 "Admin privileges required") ∧
    delete_equipment_form db (some u) uuidv
      = (db, .httpError 403 "Admin privileges required") := by
  have hb : (u.role != "admin") = true := by
    simpa [bne_iff_ne] using hrole
  refine ⟨rfl, rfl, rfl, rfl, rfl, rfl, ?_, ?_, ?_, ?_, ?_, ?_⟩
  all_goals
    simp [update_status_api, add_history_api, update_details_api, delete_api,
      edit_equipment_form, delete_equipment_form, require_admin, hb]

theorem c6_mutation_auth_witness :
    update_status_api dbDrill (some bobUser) "u" EquipmentStatus.lost 9
      = (dbDrill, .httpError 403 "Admin privileges required") := by
  obtain ⟨-, -, -, -, -, -, h7, -⟩ := c6_mutation_auth dbDrill bobUser "u"
    EquipmentStatus.lost ⟨none, none, none⟩ ⟨"note", none⟩ 9 (by decide)
  exact h7

/-! ## C7 -/

/-- C7 counterexample: create_equipment commits the entity row before
log_history runs its own commit, so in the durable state after the first
commit (`dbCreateMid`, reached while creating on an empty store) the item
already exists and resolves under its identity with ZERO history entries —
refuting "at least one history entry from the moment it exists". -/
theorem c7_creation_window_cex :
    (createCommitStates DB.empty "u" drillIn 5).head? = some dbCreateMid ∧
    get_equipment_by_uuid dbCreateMid "u" = some drillRow ∧
    histories dbCreateMid drillRow.id = [] ∧
    ¬ 1 ≤ (histories dbCreateMid drillRow.id).length := by
  decide

/-- C7 (amended): a successfully created equipment item has status
"available" and, once the creation operation completes, exactly one history
entry — the creation entry — and it resolves under its generated identity;
however the entity insert is committed before the history insert, so in the
durable state between the two commits the item already exists with zero
history entries: "at least one entry" holds from the completion of
creation, not from the moment the row exists.  The hypothesis is the
autoincrement invariant that every pre-existing history row references an
already-allocated equipment id. -/
theorem c7_create_initial_state (db : DB) (genUuid : String)
    (equipment_in : EquipmentCreate) (now : Nat) (db1 : DB) (e : Equipment)
    (hwf : ∀ h ∈ db.history, h.equipment_id < db.nextEquipmentId)
    (hok : create_equipment db genUuid equipment_in now = .ok (db1, e)) :
    e.status = EquipmentStatus.available.value ∧
    histories db1 e.id = [⟨db.nextHistoryId, e.id, now, "Создана запись", none⟩] ∧
    get_equipment_by_uuid db1 genUuid = some e ∧
    ∃ dbMid, createCommitStates db genUuid equipment_in now = [dbMid, db1] ∧
      get_equipment_by_uuid dbMid genUuid = some e ∧
      histories dbMid e.id = [] := by
  obtain ⟨hcol, -, -, -, -⟩ :=
    create_equipment_ok db genUuid equipment_in now db1 e hok
  obtain ⟨dbMid, dbFin, row, hstates, hcreate, hstatus, hmidfind, hmidhist,
      hfinfind, hfinhist⟩ :=
    createCommitStates_spec db genUuid equipment_in now hcol hwf
  rw [hok] at hcreate
  simp only [Except.ok.injEq, Prod.mk.injEq] at hcreate
  obtain ⟨hdb, hrow⟩ := hcreate
  subst hdb
  subst hrow
  exact ⟨hstatus, hfinhist, hfinfind, dbMid, hstates, hmidfind, hmidhist⟩

theorem c7_create_initial_state_witness :
    drillRow.status = EquipmentStatus.available.value ∧
    histories dbDrill drillRow.id = [⟨0, drillRow.id, 5, "Создана запись", none⟩] ∧
    get_equipment_by_uuid dbDrill "u" = some drillRow :=
  (fun hc7 => ⟨hc7.1, hc7.2.1, hc7.2.2.1⟩)
    (c7_create_initial_state DB.empty "u" drillIn 5 dbDrill drillRow
      (by simp [DB.empty]) (by rfl))

/-! ## C8 -/

/-- C8: deleting a resolvable item returns true, makes the entity
unretrievable under its identity (given identities are unique among live
rows) and cascades away every history entry referencing it, so no orphan
history remains; deleting an identity that does not resolve returns false
with the store unchanged. -/
theorem c8_delete_cascades (db : DB) (uuidv : String) :
    (get_equipment_by_uuid db uuidv = none → delete_equipment db uuidv = (db, false)) ∧
    ∀ e, get_equipment_by_uuid db uuidv = some e →
      (db.equipment.map (fun r => r.uuid)).Nodup →
      (delete_equipment db uuidv).2 = true ∧
      get_equipment_by_uuid (delete_equipment db uuidv).1 uuidv = none ∧
      histories (delete_equipment db uuidv).1 e.id = [] := by
  constructor
  · intro hn
    simp [delete_equipment, hn]
  · intro e he hnd
    have hdel : delete_equipment db uuidv
        = (⟨db.equipment.filter (fun r => r.id != e.id),
            db.history.filter (fun h => h.equipment_id != e.id),
            db.users, db.nextEquipmentId, db.nextHistoryId, db.nextUserId⟩, true) := by
      simp [delete_equipment, he]
    refine ⟨by rw [hdel], ?_, ?_⟩
    · rw [hdel, get_equipment_by_uuid, List.find?_eq_none]
      intro r hr hru
      obtain ⟨hrm, hrid⟩ := List.mem_filter.mp hr
      have he2 : db.equipment.find? (fun r => r.uuid == uuidv) = some e := he
      have hemem : e ∈ db.equipment := List.mem_of_find?_eq_some he2
      have heu := List.find?_some he2
      have hre : r = e := List.inj_on_of_nodup_map hnd hrm hemem
        (by rw [show r.uuid = uuidv from by simpa using hru,
          show e.uuid = uuidv from by simpa using heu])
      rw [hre] at hrid
      simp at hrid
    · rw [hdel, histories, List.filter_eq_nil_iff]
      intro h hm hp
      obtain ⟨-, hne⟩ := List.mem_filter.mp hm
      simp only [bne_iff_ne] at hne
      exact hne (by simpa using hp)

theorem c8_delete_cascades_witness :
    (delete_equipment dbDrill "u").2 = true ∧
    get_equipment_by_uuid (delete_equipment dbDrill "u").1 "u" = none ∧
    histories (delete_equipment dbDrill "u").1 drillRow.id = [] :=
  (c8_delete_cascades dbDrill "u").2 drillRow (by rfl) (by decide)

/-! ## C9 -/

/-- C9: frame conditions of the mutating operations — set_status rewrites
only the status column of equipment rows (id, identity, code-image path,
name, location and notes stay untouched in every row); update_fields
rewrites only the supplied fields among name/location/notes (id, identity,
code-image path and status stay untouched, as does every unsupplied
field); append_note changes no equipment row at all. -/
theorem c9_mutation_frame (db : DB) (uuidv : String) (st : EquipmentStatus)
    (upd : EquipmentUpdate) (hin : HistoryCreate) (now : Nat) :
    (∀ db1 e1, update_equipment_status db uuidv st now = some (db1, e1) →
      List.Forall₂ (fun a b => b.id = a.id ∧ b.uuid = a.uuid ∧
        b.qrcode_path = a.qrcode_path ∧ b.name = a.name ∧
        b.location = a.location ∧ b.notes = a.notes)
        db.equipment db1.equipment) ∧
    (∀ db1 e1, update_equipment_details db uuidv upd now = some (db1, e1) →
      List.Forall₂ (fun a b => b.id = a.id ∧ b.uuid = a.uuid ∧
        b.qrcode_path = a.qrcode_path ∧ b.status = a.status ∧
        (upd.name = none → b.name = a.name) ∧
        (upd.location = none → b.location = a.location) ∧
        (upd.notes = none → b.notes = a.notes))
        db.equipment db1.equipment) ∧
    (∀ db1 e1, add_history_entry db uuidv hin now = some (db1, e1) →
      db1.equipment = db.equipment) := by
  refine ⟨?_, ?_, ?_⟩
  · intro db1 e1 h
    cases hfound : get_equipment_by_uuid db uuidv with
    | none => simp [update_equipment_status, hfound] at h
    | some e =>
      simp only [update_equipment_status, hfound, Option.some.injEq,
        Prod.mk.injEq] at h
      obtain ⟨hdb1, -⟩ := h
      subst hdb1
      show List.Forall₂ _ db.equipment
        (db.equipment.map
          (fun r => if r.id == e.id then { r with status := st.value } else r))
      refine forall2_map_self _ _ _ ?_
      intro a
      by_cases hid : (a.id == e.id) = true
      · rw [if_pos hid]
        exact ⟨rfl, rfl, rfl, rfl, rfl, rfl⟩
      · rw [if_neg hid]
        exact ⟨rfl, rfl, rfl, rfl, rfl, rfl⟩
  · intro db1 e1 h
    cases hfound : get_equipment_by_uuid db uuidv with
    | none => simp [update_equipment_details, hfound] at h
    | some e =>
      by_cases hc : hasChanges upd = true
      · simp only [update_equipment_details, hfound, hc, if_true,
          Option.some.injEq, Prod.mk.injEq] at h
        obtain ⟨hdb1, -⟩ := h
        subst hdb1
        show List.Forall₂ _ db.equipment
          (db.equipment.map (fun r => if r.id == e.id then applyUpdate upd r else r))
        refine forall2_map_self _ _ _ ?_
        intro a
        by_cases hid : (a.id == e.id) = true
        · rw [if_pos hid]
          refine ⟨rfl, rfl, rfl, rfl, ?_, ?_, ?_⟩
          · intro hn; simp [applyUpdate, hn]
          · intro hn; simp [applyUpdate, hn]
          · intro hn; simp [applyUpdate, hn]
        · rw [if_neg hid]
          exact ⟨rfl, rfl, rfl, rfl, fun _ => rfl, fun _ => rfl, fun _ => rfl⟩
      · simp only [update_equipment_details, hfound, hc, Bool.false_eq_true,
          if_false, Option.some.injEq, Prod.mk.injEq] at h
        obtain ⟨hdb1, -⟩ := h
        subst hdb1
        exact List.forall₂_same.mpr
          (fun x _ => ⟨rfl, rfl, rfl, rfl, fun _ => rfl, fun _ => rfl, fun _ => rfl⟩)
  · intro db1 e1 h
    cases hfound : get_equipment_by_uuid db uuidv with
    | none => simp [add_history_entry, hfound] at h
    | some e =>
      simp only [add_history_entry, hfound, Option.some.injEq, Prod.mk.injEq] at h
      obtain ⟨hdb1, -⟩ := h
      subst hdb1
      rfl

theorem c9_mutation_frame_witness :
    List.Forall₂ (fun a b => b.id = a.id ∧ b.uuid = a.uuid ∧
      b.qrcode_path = a.qrcode_path ∧ b.name = a.name ∧
      b.location = a.location ∧ b.notes = a.notes)
      dbDrill.equipment dbIssued.equipment :=
  (c9_mutation_frame dbDrill "u" EquipmentStatus.issued ⟨none, none, none⟩
    ⟨"note", none⟩ 7).1 dbIssued issuedRow (by rfl)

/-! ## C10 -/

/-- C10: startup seeding — when no user rows exist, exactly one user with
username "admin", role "admin" and password "admin" (stored hashed) is
created; when at least one user exists, seeding changes nothing; either
way at least one user exists afterwards. -/
theorem c10_admin_seed (db : DB) :
    (db.users = [] →
      ensure_default_admin db
        = { db with
            users := [⟨db.nextUserId, "admin", "admin", hash_password "admin"⟩],
            nextUserId := db.nextUserId + 1 }) ∧
    (db.users ≠ [] → ensure_default_admin db = db) ∧
    (ensure_default_admin db).users ≠ [] := by
  refine ⟨?_, ?_, ?_⟩
  · intro hu
    simp [ensure_default_admin, hu]
  · intro hu
    have hlen : db.users.length ≠ 0 :=
      fun h => hu (List.eq_nil_of_length_eq_zero h)
    simp [ensure_default_admin, hlen]
  · by_cases hu : db.users = []
    · simp [ensure_default_admin, hu]
    · have hlen : db.users.length ≠ 0 :=
        fun h => hu (List.eq_nil_of_length_eq_zero h)
      simpa [ensure_default_admin, hlen] using hu

theorem c10_admin_seed_witness :
    ensure_default_admin DB.empty
      = { DB.empty with
          users := [⟨0, "admin", "admin", hash_password "admin"⟩],
          nextUserId := 1 } :=
  (c10_admin_seed DB.empty).1 rfl

end Inventory
